import Mathlib

set_option autoImplicit false
set_option maxHeartbeats 1000000

/-!
Shallow embedding of the transaction core of src/dns/transaction.py and the
immutability guard of src/dns/_immutable_attr.py.

Names are plain atomic keys (modelled as Nat), as the spec prescribes.  The record
set algebra (dns.rdataset, dns.set) is a collaborator outside the two files and is not
part of the two source files; its operations are modelled from the spec
(union, intersection, difference, equality, single-record constructor), as a
list of unique record-data values.  All backend invocations (point get, point
put, selector delete, name delete, existence check, end-transaction) are
recorded in a log so that claims about which backend operations run can be
stated.
-/

namespace DnsPy

instance {ε α : Type} [DecidableEq ε] [DecidableEq α] : DecidableEq (Except ε α) :=
  fun x y =>
    match x, y with
    | .ok a, .ok b =>
      if h : a = b then isTrue (by rw [h]) else
        isFalse (fun hc => h (by cases hc; rfl))
    | .error a, .error b =>
      if h : a = b then isTrue (by rw [h]) else
        isFalse (fun hc => h (by cases hc; rfl))
    | .ok _, .error _ => isFalse (fun hc => by cases hc)
    | .error _, .ok _ => isFalse (fun hc => by cases hc)

/-- Record data value.  The rdclass and rdtype fields identify the record
type the data belongs to, serial is the SOA serial field (meaningful for SOA
data only), and tag distinguishes distinct data values of the same type. -/
structure Rdata where
  rdclass : Nat
  rdtype : Nat
  serial : Nat
  tag : Nat
deriving DecidableEq, Repr

/-- Modelled from the spec: a RecordSet is a multiset of record-data values
sharing a TTL, class, type, and covers (spec section 3).  The member list is
kept unique by the algebra operations, mirroring the collaborating set
type. -/
structure Rdataset where
  rdclass : Nat
  rdtype : Nat
  covers : Nat
  ttl : Nat
  items : List Rdata
deriving DecidableEq, Repr

namespace Rdataset

/-- Modelled from the spec: adding one record-data value to a record set; a
membership-guarded append, so member lists stay unique and ordered. -/
def addItem (s : Rdataset) (rd : Rdata) : Rdataset :=
  if rd ∈ s.items then s else { s with items := s.items ++ [rd] }

/-- Modelled from the spec (Record Set Algebra): in-place union used by the
source at line 229; adds every member of other that is absent. -/
def union_update (s other : Rdataset) : Rdataset :=
  other.items.foldl addItem s

/-- Modelled from the spec (Record Set Algebra, section 6): pure union. -/
def union (s other : Rdataset) : Rdataset :=
  s.union_update other

/-- Modelled from the spec: copy the members of other into s, used by the
source at line 242 to copy an immutable record set into a mutable one. -/
def update (s other : Rdataset) : Rdataset :=
  other.items.foldl addItem s

/-- Modelled from the spec (Record Set Algebra, section 6): intersection. -/
def intersection (s other : Rdataset) : Rdataset :=
  { s with items := s.items.filter (fun rd => decide (rd ∈ other.items)) }

/-- Modelled from the spec (Record Set Algebra, section 6): difference. -/
def difference (s other : Rdataset) : Rdataset :=
  { s with items := s.items.filter (fun rd => decide (rd ∉ other.items)) }

/-- Modelled from the spec (Record Set Algebra, section 6): record-set
equality as the collaborator defines it: same class, type and covers, same
cardinality, and every member of the left present in the right. -/
def rdsEq (a b : Rdataset) : Prop :=
  a.rdclass = b.rdclass ∧ a.rdtype = b.rdtype ∧ a.covers = b.covers ∧
    a.items.length = b.items.length ∧ ∀ rd ∈ a.items, rd ∈ b.items

instance (a b : Rdataset) : Decidable (rdsEq a b) := by
  unfold rdsEq; infer_instance

/-- Modelled from the spec (section 6): the single-record-data constructor
taking a TTL and one record-data value; class and type come from the data,
covers is none. -/
def from_rdata (ttl : Nat) (rd : Rdata) : Rdataset :=
  ⟨rd.rdclass, rd.rdtype, 0, ttl, [rd]⟩

end Rdataset

/-- An RRset (dns.rrset) is a record set with a name attached; the source
treats it as an rdataset when convenient (line 280). -/
structure RRset where
  name : Nat
  rdclass : Nat
  rdtype : Nat
  covers : Nat
  ttl : Nat
  items : List Rdata
deriving DecidableEq, Repr

/-- View an RRset as the record set it carries. -/
def RRset.toRdataset (rr : RRset) : Rdataset :=
  ⟨rr.rdclass, rr.rdtype, rr.covers, rr.ttl, rr.items⟩

/-- A backend key: name plus the (class, type, covers) selector. -/
structure Key where
  name : Nat
  rdclass : Nat
  rdtype : Nat
  covers : Nat
deriving DecidableEq, Repr

/-- A value as the backend stores it: the record set plus whether the stored
object is an ImmutableRdataset (the source checks this at lines 238 and
60). -/
structure StoredRds where
  immut : Bool
  rds : Rdataset
deriving DecidableEq, Repr

/-- The backend store, an association list from keys to stored values. -/
abbrev Store := List (Key × StoredRds)

/-- Point lookup in the store. -/
def storeGet : Store → Key → Option StoredRds
  | [], _ => none
  | (k, v) :: rest, key => if k = key then some v else storeGet rest key

/-- Point write: replace the value at the key. -/
def storePut (s : Store) (k : Key) (v : StoredRds) : Store :=
  (k, v) :: s.filter (fun kv => decide (kv.1 ≠ k))

/-- Delete the record set at one key. -/
def storeDelKey (s : Store) (k : Key) : Store :=
  s.filter (fun kv => decide (kv.1 ≠ k))

/-- Delete every record set under a name. -/
def storeDelName (s : Store) (n : Nat) : Store :=
  s.filter (fun kv => decide (kv.1.name ≠ n))

/-- Does any record set exist under the name? -/
def storeNameExists (s : Store) (n : Nat) : Bool :=
  s.any (fun kv => kv.1.name == n)

/-- One invocation of the low level backend API (lines 328-367). -/
inductive BackendOp
  | getOp (k : Key)
  | putOp (k : Key) (r : Rdataset)
  | delRdsOp (k : Key)
  | delNameOp (n : Nat)
  | existsOp (n : Nat)
  | endOp (commit : Bool)
deriving DecidableEq, Repr

/-- The observable backend state: the store together with the sequence of
backend operations invoked so far. -/
structure TxState where
  store : Store
  log : List BackendOp
deriving DecidableEq, Repr

/-- The error outcomes of the high level API: ReadOnly, DeleteNotExact,
TypeError, ValueError and KeyError of the source. -/
inductive TxError
  | readOnly
  | deleteNotExact
  | typeErr
  | valueErr
  | keyErr
deriving DecidableEq, Repr

/-- Backend point lookup (_get_rdataset), recorded in the log. -/
def bGet (st : TxState) (k : Key) : Option StoredRds × TxState :=
  (storeGet st.store k, { st with log := st.log ++ [.getOp k] })

/-- Key of a record set stored under a name: selector comes from the record
set itself, as _put_rdataset implementations key their writes. -/
def keyOf (n : Nat) (r : Rdataset) : Key :=
  ⟨n, r.rdclass, r.rdtype, r.covers⟩

/-- Backend point write (_put_rdataset); what a backend stores is the plain
mutable record set handed to it. -/
def bPut (st : TxState) (n : Nat) (r : Rdataset) : TxState :=
  { store := storePut st.store (keyOf n r) ⟨false, r⟩,
    log := st.log ++ [.putOp (keyOf n r) r] }

/-- Backend selector delete (_delete_rdataset). -/
def bDelRds (st : TxState) (k : Key) : TxState :=
  { store := storeDelKey st.store k, log := st.log ++ [.delRdsOp k] }

/-- Backend name delete (_delete_name). -/
def bDelName (st : TxState) (n : Nat) : TxState :=
  { store := storeDelName st.store n, log := st.log ++ [.delNameOp n] }

/-- Backend existence check (_name_exists). -/
def bNameExists (st : TxState) (n : Nat) : Bool × TxState :=
  (storeNameExists st.store n, { st with log := st.log ++ [.existsOp n] })

/-- One positional argument of the variadic high level calls.  Names are
pre-parsed (text conversion is a collaborator outside the core). -/
inductive Arg
  | aname (n : Nat)
  | aint (i : Nat)
  | ardata (rd : Rdata)
  | ards (r : Rdataset)
  | arrset (rr : RRset)
deriving DecidableEq, Repr

/-- The record-set-like value a normalized call works on downstream: either a
plain Rdataset, or an RRset object used directly as a record set (the source
does the latter at line 280). -/
inductive WorkRds
  | plain (r : Rdataset)
  | rrsetVal (rr : RRset)
deriving DecidableEq, Repr

/-- The record set carried by a working value. -/
def WorkRds.toRds : WorkRds → Rdataset
  | .plain r => r
  | .rrsetVal rr => rr.toRdataset

/-- Is the working value a plain Rdataset (rather than an RRset object)? -/
def WorkRds.isPlain : WorkRds → Bool
  | .plain _ => true
  | .rrsetVal _ => false

/-- dns.ttl.MAX_TTL. -/
def maxTTL : Nat := 2147483647

/-- The covers value dns.rdatatype.NONE. -/
def dnsNONE : Nat := 0

/-- The rdata class dns.rdataclass.IN. -/
def dnsIN : Nat := 1

/-- The rdata type dns.rdatatype.SOA. -/
def dnsSOA : Nat := 6

/-- _rdataset_from_args (lines 181-207): consume the leading arguments after
the name and produce the record set, or the null sentinel when deleting with
no trailing arguments.  TypeError and ValueError collapse to typeErr and
valueErr. -/
def rdatasetFromArgs (deleting : Bool) (args : List Arg) :
    Except TxError (Option WorkRds × List Arg) :=
  match args with
  | [] => if deleting then .ok (none, []) else .error .typeErr
  | .ards r :: rest => .ok (some (.plain r), rest)
  | .arrset rr :: rest => .ok (some (.rrsetVal rr), rest)
  | arg :: rest =>
    if deleting then
      match arg with
      | .ardata rd => .ok (some (.plain (Rdataset.from_rdata 0 rd)), rest)
      | _ => .error .typeErr
    else
      match arg with
      | .aint ttl =>
        if ttl > maxTTL then .error .valueErr
        else
          match rest with
          | [] => .error .typeErr
          | .ardata rd :: rest2 => .ok (some (.plain (Rdataset.from_rdata ttl rd)), rest2)
          | _ :: _ => .error .typeErr
      | _ => .error .typeErr

/-- Lines 227-229: a fresh plain Rdataset built from the RRset fields, then
union_update with the RRset members (rrsets do not print like rdatasets, so
_add converts). -/
def rrsetToPlainRds (rr : RRset) : Rdataset :=
  Rdataset.union_update ⟨rr.rdclass, rr.rdtype, rr.covers, rr.ttl, []⟩ rr.toRdataset

/-- Argument normalization of _add (lines 209-233): produce the name and the
working record set, or the TypeError and ValueError the source raises. -/
def addNormalize (args : List Arg) : Except TxError (Nat × WorkRds) :=
  match args with
  | [] => .error .typeErr
  | .aname n :: rest =>
    match rdatasetFromArgs false rest with
    | .error e => .error e
    | .ok (some w, rest2) => if rest2.isEmpty then .ok (n, w) else .error .typeErr
    | .ok (none, _) => .error .typeErr
  | .arrset rr :: rest =>
    if rest.isEmpty then .ok (rr.name, .plain (rrsetToPlainRds rr)) else .error .typeErr
  | _ :: _ => .error .typeErr

/-- The normalized shape of a delete call: either a (name, selector) form or
a (name, record set or null sentinel) form. -/
inductive DeleteForm
  | selForm (name : Nat) (rdclass : Nat) (rdtype : Nat) (covers : Nat)
  | rdsForm (name : Nat) (w : Option WorkRds)
deriving DecidableEq, Repr

/-- Argument normalization of _delete (lines 249-285): dispatch on the first
argument and on whether an int follows the name (the selector form). -/
def deleteNormalize (args : List Arg) : Except TxError DeleteForm :=
  match args with
  | [] => .error .typeErr
  | .aname n :: rest =>
    match rest with
    | .aint c :: rest2 =>
      match rest2 with
      | [] => .error .typeErr
      | .aint t :: rest3 =>
        match rest3 with
        | [] => .ok (.selForm n c t dnsNONE)
        | .aint cov :: rest4 =>
          if rest4.isEmpty then .ok (.selForm n c t cov) else .error .typeErr
        | _ :: _ => .error .valueErr
      | _ :: _ => .error .valueErr
    | _ =>
      match rdatasetFromArgs true rest with
      | .error e => .error e
      | .ok (w, rest2) => if rest2.isEmpty then .ok (.rdsForm n w) else .error .typeErr
  | .arrset rr :: rest =>
    if rest.isEmpty then .ok (.rdsForm rr.name (some (.rrsetVal rr))) else .error .typeErr
  | _ :: _ => .error .typeErr

/-- A transaction carries the two flags fixed at creation (lines 40-42). -/
structure Transaction where
  replacement : Bool
  read_only : Bool
deriving DecidableEq, Repr

/-- Lines 238-243: the immutable existing value is copied into a fresh
mutable working record set (class, type and covers copied, members copied
one by one, TTL left at the fresh default). -/
def copyImmutable (r : Rdataset) : Rdataset :=
  Rdataset.update ⟨r.rdclass, r.rdtype, r.covers, 0, []⟩ r

/-- _add (lines 209-247): normalize, then in replace mode write the record
set through unconditionally; otherwise union it with the existing record set
at the same key (after copying an immutable existing value) and write the
result. -/
def addImpl (doReplace : Bool) (args : List Arg) (st : TxState) :
    TxState × Option TxError :=
  match addNormalize args with
  | .error e => (st, some e)
  | .ok (name, w) =>
    let rdataset := w.toRds
    if doReplace then (bPut st name rdataset, none)
    else
      let p := bGet st (keyOf name rdataset)
      match p.1 with
      | none => (bPut p.2 name rdataset, none)
      | some stored =>
        let existing := if stored.immut then copyImmutable stored.rds else stored.rds
        (bPut p.2 name (existing.union rdataset), none)

/-- Lines 302-305: whole-name deletion; in exact mode the existence check
runs first and a missing name raises DeleteNotExact. -/
def nameDelete (exact : Bool) (n : Nat) (st : TxState) : TxState × Option TxError :=
  if exact then
    let p := bNameExists st n
    if p.1 then (bDelName p.2 n, none) else (p.2, some .deleteNotExact)
  else (bDelName st n, none)

/-- _delete (lines 249-307): normalize, then execute the selector form, the
record-set form (whose truthiness test sends an empty record set to
whole-name deletion), or the whole-name form. -/
def deleteImpl (exact : Bool) (args : List Arg) (st : TxState) :
    TxState × Option TxError :=
  match deleteNormalize args with
  | .error e => (st, some e)
  | .ok (.selForm n c t cov) =>
    let p := bGet st ⟨n, c, t, cov⟩
    match p.1 with
    | none => if exact then (p.2, some .deleteNotExact) else (p.2, none)
    | some _ => (bDelRds p.2 ⟨n, c, t, cov⟩, none)
  | .ok (.rdsForm n w?) =>
    match w? with
    | none => nameDelete exact n st
    | some w =>
      let rdataset := w.toRds
      if rdataset.items.isEmpty then nameDelete exact n st
      else
        let p := bGet st (keyOf n rdataset)
        match p.1 with
        | none => if exact then (p.2, some .deleteNotExact) else (p.2, none)
        | some stored =>
          if exact = true ∧ ¬ Rdataset.rdsEq (stored.rds.intersection rdataset) rdataset then
            (p.2, some .deleteNotExact)
          else
            let remainder := stored.rds.difference rdataset
            if remainder.items.isEmpty then (bDelRds p.2 (keyOf n remainder), none)
            else (bPut p.2 n remainder, none)

/-- add (lines 68-80): read-only guard first, then _add without replace. -/
def Transaction.add (t : Transaction) (args : List Arg) (st : TxState) :
    TxState × Option TxError :=
  if t.read_only then (st, some .readOnly) else addImpl false args st

/-- replace (lines 82-100): read-only guard first, then _add with replace. -/
def Transaction.replace (t : Transaction) (args : List Arg) (st : TxState) :
    TxState × Option TxError :=
  if t.read_only then (st, some .readOnly) else addImpl true args st

/-- delete (lines 102-121): read-only guard first, then _delete inexact. -/
def Transaction.delete (t : Transaction) (args : List Arg) (st : TxState) :
    TxState × Option TxError :=
  if t.read_only then (st, some .readOnly) else deleteImpl false args st

/-- delete_exact (lines 123-143): read-only guard first, then _delete
exact. -/
def Transaction.delete_exact (t : Transaction) (args : List Arg) (st : TxState) :
    TxState × Option TxError :=
  if t.read_only then (st, some .readOnly) else deleteImpl true args st

/-- Modelled from the spec: the ImmutableRecordSet wrapper returned by reads
(dns.rdataset.ImmutableRdataset is not among the source files).  The flag
models the _immutable_init attribute of src/dns/_immutable_attr.py being
present and equal to the object itself, which holds only during
construction; every published wrapper has it false. -/
structure ImmutableRdataset where
  immutableInitActive : Bool
  rds : Rdataset
deriving DecidableEq, Repr

/-- Attribute assignment interception from _Immutable (lines 19-24 of
src/dns/_immutable_attr.py): assignment succeeds only while construction is
active, otherwise TypeError. -/
def ImmutableRdataset.setAttr (o : ImmutableRdataset) (r : Rdataset) :
    Except TxError ImmutableRdataset :=
  if o.immutableInitActive then .ok { o with rds := r } else .error .typeErr

/-- Attribute removal interception from _Immutable (lines 26-31 of
src/dns/_immutable_attr.py). -/
def ImmutableRdataset.delAttr (o : ImmutableRdataset) :
    Except TxError ImmutableRdataset :=
  if o.immutableInitActive then .ok o else .error .typeErr

/-- Modelled from the spec: constructing the wrapper copies the record set
(copy-on-read) and finishes with the construction flag removed. -/
def wrapImmutable (r : Rdataset) : ImmutableRdataset :=
  ⟨false, r⟩

/-- get (lines 48-62): backend point lookup; a found mutable record set is
wrapped as an ImmutableRdataset, a found immutable one is returned as is,
absence returns none. -/
def Transaction.get (_t : Transaction) (name rdclass rdtype covers : Nat)
    (st : TxState) : Option ImmutableRdataset × TxState :=
  let p := bGet st ⟨name, rdclass, rdtype, covers⟩
  match p.1 with
  | none => (none, p.2)
  | some stored =>
    if stored.immut then (some ⟨false, stored.rds⟩, p.2)
    else (some (wrapImmutable stored.rds), p.2)

/-- Lines 164-165: a computed serial outside [1, 0xffffffff] is reset
to 1. -/
def wrapSerial (x : Int) : Int :=
  if x > 0xffffffff ∨ x < 1 then 1 else x

/-- set_serial (lines 151-168): read the SOA record set at the name, fail
with KeyError when absent or empty, start from the given value or the
current serial, add the increment, apply the wraparound reset, and write the
replacement record back through replace. -/
def Transaction.set_serial (t : Transaction) (increment : Int) (value : Option Int)
    (name : Nat) (rdclass : Nat) (st : TxState) : TxState × Option TxError :=
  let p := bGet st ⟨name, rdclass, dnsSOA, dnsNONE⟩
  match p.1 with
  | none => (p.2, some .keyErr)
  | some stored =>
    match stored.rds.items with
    | [] => (p.2, some .keyErr)
    | rd0 :: _ =>
      let serial0 : Int := match value with
        | some v => v
        | none => (rd0.serial : Int)
      let serial2 := wrapSerial (serial0 + increment)
      let rdata : Rdata := { rd0 with serial := serial2.toNat }
      let newRds := Rdataset.from_rdata stored.rds.ttl rdata
      t.replace [.aname name, .ards newRds] p.2

/-- _end_transaction as a backend operation: it only appends to the log. -/
def endTransaction (st : TxState) (commit : Bool) : TxState :=
  { st with log := st.log ++ [.endOp commit] }

/-- The context manager exit (lines 316-321): end with commit when no error
is active, without commit otherwise; always returns false, so an active
error propagates. -/
def exitTransaction (excPresent : Bool) (st : TxState) : TxState × Bool :=
  if excPresent then (endTransaction st false, false) else (endTransaction st true, false)

/-- Scoped-block usage of a transaction: run the body, then invoke the exit
hook with whether an error is active; a non-suppressed error propagates. -/
def withTransaction (body : TxState → TxState × Option TxError) (st : TxState) :
    TxState × Option TxError :=
  let r := body st
  let e := exitTransaction r.2.isSome r.1
  (e.1, if e.2 then none else r.2)

/-- Number of end-transaction invocations recorded in a log. -/
def countEnds (l : List BackendOp) : Nat :=
  (l.filter fun op => match op with | .endOp _ => true | _ => false).length

/-- The SOA serial currently stored at a name, for reading back results. -/
def storedSerial (st : TxState) (n c : Nat) : Option Nat :=
  match storeGet st.store ⟨n, c, dnsSOA, dnsNONE⟩ with
  | none => none
  | some s =>
    match s.rds.items with
    | [] => none
    | rd :: _ => some rd.serial

/-! ### Store lemmas -/

theorem storeGet_put_same (s : Store) (k : Key) (v : StoredRds) :
    storeGet (storePut s k v) k = some v := by
  simp [storePut, storeGet]

theorem storeGet_filter (s : Store) (p : Key × StoredRds → Bool) (k : Key)
    (h : ∀ v, p (k, v) = true) :
    storeGet (s.filter p) k = storeGet s k := by
  induction s with
  | nil => rfl
  | cons kv rest ih =>
    obtain ⟨k1, v1⟩ := kv
    rw [List.filter_cons]
    by_cases hk : k1 = k
    · subst hk
      rw [if_pos (h v1)]
      simp [storeGet]
    · by_cases hp : p (k1, v1) = true
      · rw [if_pos hp]
        simp only [storeGet]
        rw [if_neg hk, if_neg hk, ih]
      · rw [if_neg hp, ih]
        simp only [storeGet]
        rw [if_neg hk]

theorem storeGet_put_other (s : Store) (k : Key) (v : StoredRds) (k' : Key)
    (h : k' ≠ k) :
    storeGet (storePut s k v) k' = storeGet s k' := by
  have h1 : ¬ (k = k') := by
    intro hc
    exact h hc.symm
  unfold storePut
  simp only [storeGet]
  rw [if_neg h1]
  exact storeGet_filter s _ k' (by intro v1; simp [h])

theorem storeGet_delKey_same (s : Store) (k : Key) :
    storeGet (storeDelKey s k) k = none := by
  induction s with
  | nil => rfl
  | cons kv rest ih =>
    obtain ⟨k1, v1⟩ := kv
    unfold storeDelKey at *
    rw [List.filter_cons]
    by_cases hk : k1 = k
    · rw [if_neg (by simp [hk])]
      exact ih
    · rw [if_pos (by simp [hk])]
      simp only [storeGet]
      rw [if_neg hk]
      exact ih

theorem storeGet_delKey_other (s : Store) (k k' : Key) (h : k' ≠ k) :
    storeGet (storeDelKey s k) k' = storeGet s k' :=
  storeGet_filter s _ k' (by intro v1; simp [h])

theorem storeGet_delName_same (s : Store) (n : Nat) (k : Key) (h : k.name = n) :
    storeGet (storeDelName s n) k = none := by
  induction s with
  | nil => rfl
  | cons kv rest ih =>
    obtain ⟨k1, v1⟩ := kv
    unfold storeDelName at *
    rw [List.filter_cons]
    by_cases hn : k1.name = n
    · rw [if_neg (by simp [hn])]
      exact ih
    · have hk : k1 ≠ k := fun hc => hn (by rw [hc, h])
      rw [if_pos (by simp [hn])]
      simp only [storeGet]
      rw [if_neg hk]
      exact ih

theorem storeGet_delName_other (s : Store) (n : Nat) (k : Key) (h : k.name ≠ n) :
    storeGet (storeDelName s n) k = storeGet s k :=
  storeGet_filter s _ k (by intro v1; simp [h])

/-! ### Record set algebra lemmas -/

theorem addItem_items (x : Rdataset) (a : Rdata) :
    (Rdataset.addItem x a).items =
      if a ∈ x.items then x.items else x.items ++ [a] := by
  unfold Rdataset.addItem
  split <;> simp_all

theorem foldl_addItem_items_congr (l : List Rdata) (x y : Rdataset)
    (h : x.items = y.items) :
    (l.foldl Rdataset.addItem x).items = (l.foldl Rdataset.addItem y).items := by
  induction l generalizing x y with
  | nil => exact h
  | cons a tl ih =>
    simp only [List.foldl_cons]
    apply ih
    rw [addItem_items, addItem_items, h]

theorem foldl_addItem_items_fresh (l : List Rdata) (acc : Rdataset)
    (hnd : l.Nodup) (hdisj : ∀ x ∈ l, x ∉ acc.items) :
    (l.foldl Rdataset.addItem acc).items = acc.items ++ l := by
  induction l generalizing acc with
  | nil => simp
  | cons a tl ih =>
    have ha : a ∉ acc.items := hdisj a (by simp)
    have hstep : Rdataset.addItem acc a = { acc with items := acc.items ++ [a] } := by
      unfold Rdataset.addItem
      rw [if_neg ha]
    rw [List.foldl_cons, hstep,
      ih { acc with items := acc.items ++ [a] } (List.Nodup.of_cons hnd) ?_]
    · simp
    · intro x hx
      simp only [List.mem_append, List.mem_singleton]
      rintro (hx1 | hx1)
      · exact hdisj x (by simp [hx]) hx1
      · subst hx1
        exact (List.nodup_cons.mp hnd).1 hx

theorem copyImmutable_items (r : Rdataset) (h : r.items.Nodup) :
    (copyImmutable r).items = r.items := by
  unfold copyImmutable Rdataset.update
  rw [foldl_addItem_items_fresh _ _ h (by intro x _; simp)]
  simp

theorem rrsetToPlainRds_items (rr : RRset) (h : rr.items.Nodup) :
    (rrsetToPlainRds rr).items = rr.items := by
  unfold rrsetToPlainRds Rdataset.union_update RRset.toRdataset
  rw [foldl_addItem_items_fresh _ _ h (by intro x _; simp)]
  simp

theorem union_items_congr (x y B : Rdataset) (h : x.items = y.items) :
    (x.union B).items = (y.union B).items := by
  unfold Rdataset.union Rdataset.union_update
  exact foldl_addItem_items_congr B.items x y h

theorem foldl_addItem_fields (l : List Rdata) (x : Rdataset) :
    (l.foldl Rdataset.addItem x).rdclass = x.rdclass ∧
    (l.foldl Rdataset.addItem x).rdtype = x.rdtype ∧
    (l.foldl Rdataset.addItem x).covers = x.covers := by
  induction l generalizing x with
  | nil => exact ⟨rfl, rfl, rfl⟩
  | cons a tl ih =>
    rw [List.foldl_cons]
    obtain ⟨h1, h2, h3⟩ := ih (Rdataset.addItem x a)
    have ha1 : (Rdataset.addItem x a).rdclass = x.rdclass := by
      unfold Rdataset.addItem
      split <;> rfl
    have ha2 : (Rdataset.addItem x a).rdtype = x.rdtype := by
      unfold Rdataset.addItem
      split <;> rfl
    have ha3 : (Rdataset.addItem x a).covers = x.covers := by
      unfold Rdataset.addItem
      split <;> rfl
    exact ⟨h1.trans ha1, h2.trans ha2, h3.trans ha3⟩

theorem union_fields (x B : Rdataset) :
    (x.union B).rdclass = x.rdclass ∧ (x.union B).rdtype = x.rdtype ∧
      (x.union B).covers = x.covers := by
  unfold Rdataset.union Rdataset.union_update
  exact foldl_addItem_fields B.items x

theorem copyImmutable_fields (r : Rdataset) :
    (copyImmutable r).rdclass = r.rdclass ∧ (copyImmutable r).rdtype = r.rdtype ∧
      (copyImmutable r).covers = r.covers := by
  unfold copyImmutable Rdataset.update
  exact foldl_addItem_fields r.items ⟨r.rdclass, r.rdtype, r.covers, 0, []⟩

/-! ### Fixtures used by witnesses and counterexamples -/

/-- A writable transaction. -/
def txW : Transaction := ⟨false, false⟩

/-- A read-only transaction. -/
def txRO : Transaction := ⟨false, true⟩

/-- An SOA record data value with the maximum serial. -/
def soaMax : Rdata := ⟨1, 6, 0xffffffff, 0⟩

/-- An SOA record set holding soaMax. -/
def soaMaxRds : Rdataset := ⟨1, 6, 0, 300, [soaMax]⟩

/-- A state whose zone root has the soaMax SOA record set. -/
def soaMaxState : TxState := ⟨[(⟨0, 1, 6, 0⟩, ⟨false, soaMaxRds⟩)], []⟩

/-- An SOA record data value with serial 10. -/
def soaTen : Rdata := ⟨1, 6, 10, 0⟩

/-- A state whose zone root has an SOA record set with serial 10. -/
def soaTenState : TxState := ⟨[(⟨0, 1, 6, 0⟩, ⟨false, ⟨1, 6, 0, 300, [soaTen]⟩⟩)], []⟩

/-! ### C1: set_serial -/

/-- C1, amended: on a writable transaction whose zone has a non-empty SOA
record set at the name, set_serial starts from the explicit value when one
is given and from the current serial otherwise, and then always adds the
increment (the source applies the increment unconditionally at line 163);
the computed serial is reset to 1 when outside [1, 0xffffffff], and the
result is written back as a single-record SOA record set with only the
serial changed. -/
theorem c1_set_serial_increment_always
    (t : Transaction) (st : TxState) (n c : Nat) (inc : Int) (v : Option Int)
    (stored : StoredRds) (rd0 : Rdata) (rest : List Rdata)
    (hro : t.read_only = false)
    (hget : storeGet st.store ⟨n, c, dnsSOA, dnsNONE⟩ = some stored)
    (hitems : stored.rds.items = rd0 :: rest)
    (hcls : rd0.rdclass = c) (htyp : rd0.rdtype = dnsSOA) :
    (t.set_serial inc v n c st).2 = none ∧
    storeGet (t.set_serial inc v n c st).1.store ⟨n, c, dnsSOA, dnsNONE⟩ =
      some ⟨false, Rdataset.from_rdata stored.rds.ttl
        { rd0 with serial := (wrapSerial ((v.getD (rd0.serial : Int)) + inc)).toNat }⟩ := by
  have hser : (match v with
      | some x => x
      | none => (rd0.serial : Int)) = v.getD (rd0.serial : Int) := by
    cases v <;> rfl
  unfold Transaction.set_serial
  simp only [bGet, hget, hitems, hser]
  unfold Transaction.replace
  rw [hro]
  have hkey : keyOf n (Rdataset.from_rdata stored.rds.ttl
      { rd0 with serial := (wrapSerial ((v.getD (rd0.serial : Int)) + inc)).toNat }) =
      ⟨n, c, dnsSOA, dnsNONE⟩ := by
    unfold keyOf Rdataset.from_rdata
    simp [hcls, htyp, dnsNONE]
  simp [addImpl, addNormalize, rdatasetFromArgs, WorkRds.toRds, bPut, hkey,
    storeGet_put_same]

/-- Witness for c1_set_serial_increment_always at the wraparound instance:
serial 0xffffffff with increment 1 and no explicit value becomes 1. -/
theorem c1_set_serial_increment_always_witness :
    txW.read_only = false ∧
    storeGet soaMaxState.store ⟨0, 1, dnsSOA, dnsNONE⟩ = some ⟨false, soaMaxRds⟩ ∧
    soaMaxRds.items = soaMax :: [] ∧
    soaMax.rdclass = 1 ∧ soaMax.rdtype = dnsSOA ∧
    ((txW.set_serial 1 none 0 1 soaMaxState).2 = none ∧
      storeGet (txW.set_serial 1 none 0 1 soaMaxState).1.store ⟨0, 1, dnsSOA, dnsNONE⟩ =
        some ⟨false, Rdataset.from_rdata soaMaxRds.ttl
          { soaMax with
            serial := (wrapSerial (((none : Option Int).getD (soaMax.serial : Int)) + 1)).toNat }⟩) :=
  ⟨by decide, by decide, by decide, by decide, by decide,
    c1_set_serial_increment_always txW soaMaxState 0 1 1 none ⟨false, soaMaxRds⟩ soaMax []
      (by decide) (by decide) (by decide) (by decide) (by decide)⟩

/-- Counterexample to C1 as stated: with prior SOA serial 10, calling
set_serial with explicit value 5 and the default increment 1 writes serial
6, not exactly 5 (the source adds the increment even when a value is
given). -/
theorem c1_counterexample :
    (txW.set_serial 1 (some 5) 0 1 soaTenState).2 = none ∧
    storedSerial (txW.set_serial 1 (some 5) 0 1 soaTenState).1 0 1 = some 6 ∧
    (6 : Nat) ≠ 5 := by decide

/-! ### C2: read-only guard -/

/-- C2, amended: on a read-only transaction, add, replace, delete and
delete_exact fail with ReadOnly before any argument normalization or backend
access (state and backend log unchanged, for every argument list); but
set_serial first performs the backend SOA point lookup and only then fails:
with ReadOnly when the write is attempted, or with KeyError when the SOA
record set is absent or empty. -/
theorem c2_read_only_guard
    (t : Transaction) (args : List Arg) (st : TxState)
    (n c : Nat) (inc : Int) (v : Option Int)
    (hro : t.read_only = true) :
    t.add args st = (st, some .readOnly) ∧
    t.replace args st = (st, some .readOnly) ∧
    t.delete args st = (st, some .readOnly) ∧
    t.delete_exact args st = (st, some .readOnly) ∧
    (t.set_serial inc v n c st).1.store = st.store ∧
    (t.set_serial inc v n c st).1.log = st.log ++ [.getOp ⟨n, c, dnsSOA, dnsNONE⟩] ∧
    ((t.set_serial inc v n c st).2 = some .readOnly ∨
      (t.set_serial inc v n c st).2 = some .keyErr) := by
  refine ⟨by simp [Transaction.add, hro], by simp [Transaction.replace, hro],
    by simp [Transaction.delete, hro], by simp [Transaction.delete_exact, hro], ?_⟩
  unfold Transaction.set_serial
  simp only [bGet]
  cases hg : storeGet st.store ⟨n, c, dnsSOA, dnsNONE⟩ with
  | none => simp
  | some stored =>
    cases hi : stored.rds.items with
    | nil => simp [hi]
    | cons rd0 rest =>
      unfold Transaction.replace
      rw [hro]
      simp [hi]

/-- Witness for c2_read_only_guard on a read-only transaction over a state
with an SOA record set. -/
theorem c2_read_only_guard_witness :
    txRO.read_only = true ∧
    (txRO.add [] soaTenState = (soaTenState, some .readOnly) ∧
     txRO.replace [] soaTenState = (soaTenState, some .readOnly) ∧
     txRO.delete [] soaTenState = (soaTenState, some .readOnly) ∧
     txRO.delete_exact [] soaTenState = (soaTenState, some .readOnly) ∧
     (txRO.set_serial 1 none 0 1 soaTenState).1.store = soaTenState.store ∧
     (txRO.set_serial 1 none 0 1 soaTenState).1.log =
       soaTenState.log ++ [.getOp ⟨0, 1, dnsSOA, dnsNONE⟩] ∧
     ((txRO.set_serial 1 none 0 1 soaTenState).2 = some .readOnly ∨
       (txRO.set_serial 1 none 0 1 soaTenState).2 = some .keyErr)) :=
  ⟨by decide, c2_read_only_guard txRO [] soaTenState 0 1 1 none (by decide)⟩

/-- Counterexample to C2 as stated: set_serial on a read-only transaction
over an empty store invokes the backend point lookup (the log gains a getOp)
and fails with KeyError, not ReadOnly. -/
theorem c2_counterexample :
    (txRO.set_serial 1 none 0 1 ⟨[], []⟩).2 = some .keyErr ∧
    (txRO.set_serial 1 none 0 1 ⟨[], []⟩).1.log = [.getOp ⟨0, 1, dnsSOA, dnsNONE⟩] ∧
    some TxError.keyErr ≠ some TxError.readOnly := by decide

/-! ### Run-shape helper lemmas -/

/-- The result of a get call, as a function of the store. -/
theorem get_eq (t : Transaction) (nm c ty cov : Nat) (st : TxState) :
    (t.get nm c ty cov st).1 =
      match storeGet st.store ⟨nm, c, ty, cov⟩ with
      | none => none
      | some stored => some ⟨false, stored.rds⟩ := by
  unfold Transaction.get
  simp only [bGet]
  cases storeGet st.store ⟨nm, c, ty, cov⟩ with
  | none => rfl
  | some stored => cases h : stored.immut <;> simp [h, wrapImmutable]

/-- The run of add on the (name, record set) form, as a function of the
existing value at the key. -/
theorem add_rds_run (t : Transaction) (st : TxState) (n : Nat) (B : Rdataset)
    (hro : t.read_only = false) :
    t.add [.aname n, .ards B] st =
      match storeGet st.store (keyOf n B) with
      | none => (bPut { st with log := st.log ++ [.getOp (keyOf n B)] } n B, none)
      | some stored =>
        (bPut { st with log := st.log ++ [.getOp (keyOf n B)] } n
          ((if stored.immut then copyImmutable stored.rds else stored.rds).union B),
          none) := by
  unfold Transaction.add
  rw [hro]
  simp only [Bool.false_eq_true, if_false]
  unfold addImpl addNormalize rdatasetFromArgs
  simp only [List.isEmpty_nil, if_true, WorkRds.toRds, bGet]
  cases storeGet st.store (keyOf n B) with
  | none => rfl
  | some stored => rfl

/-- The run of replace on the (name, record set) form. -/
theorem replace_rds_run (t : Transaction) (st : TxState) (n : Nat) (B : Rdataset)
    (hro : t.read_only = false) :
    t.replace [.aname n, .ards B] st = (bPut st n B, none) := by
  unfold Transaction.replace
  rw [hro]
  simp only [Bool.false_eq_true, if_false]
  unfold addImpl addNormalize rdatasetFromArgs
  simp only [List.isEmpty_nil, if_true, WorkRds.toRds]

/-! ### C5: replace overwrites -/

/-- C5: replace unconditionally overwrites the record set stored at the
(name, selector) with B, so a following get returns exactly B (wrapped
immutable), whatever was stored before and whatever its cardinality; every
other key, in particular every other selector under the same name, is left
unchanged. -/
theorem c5_replace_overwrites
    (t : Transaction) (st : TxState) (n : Nat) (B : Rdataset) (k' : Key)
    (hro : t.read_only = false) (hk' : k' ≠ keyOf n B) :
    (t.replace [.aname n, .ards B] st).2 = none ∧
    (t.get n B.rdclass B.rdtype B.covers (t.replace [.aname n, .ards B] st).1).1 =
      some (wrapImmutable B) ∧
    storeGet (t.replace [.aname n, .ards B] st).1.store k' = storeGet st.store k' := by
  rw [replace_rds_run t st n B hro]
  refine ⟨rfl, ?_, ?_⟩
  · rw [get_eq]
    have hk : (⟨n, B.rdclass, B.rdtype, B.covers⟩ : Key) = keyOf n B := rfl
    simp only [bPut, hk]
    rw [storeGet_put_same]
    rfl
  · simp only [bPut]
    exact storeGet_put_other st.store (keyOf n B) ⟨false, B⟩ k' hk'

/-- Witness for c5_replace_overwrites: replacing a two-member record set
with a one-member one. -/
theorem c5_replace_overwrites_witness :
    txW.read_only = false ∧
    (⟨5, 1, 16, 0⟩ : Key) ≠ keyOf 0 ⟨1, 16, 0, 60, [⟨1, 16, 0, 9⟩]⟩ ∧
    ((txW.replace [.aname 0, .ards ⟨1, 16, 0, 60, [⟨1, 16, 0, 9⟩]⟩]
        ⟨[(⟨0, 1, 16, 0⟩, ⟨false, ⟨1, 16, 0, 60, [⟨1, 16, 0, 1⟩, ⟨1, 16, 0, 2⟩]⟩⟩)], []⟩).2 = none ∧
      (txW.get 0 (Rdataset.rdclass ⟨1, 16, 0, 60, [⟨1, 16, 0, 9⟩]⟩)
          (Rdataset.rdtype ⟨1, 16, 0, 60, [⟨1, 16, 0, 9⟩]⟩)
          (Rdataset.covers ⟨1, 16, 0, 60, [⟨1, 16, 0, 9⟩]⟩)
          (txW.replace [.aname 0, .ards ⟨1, 16, 0, 60, [⟨1, 16, 0, 9⟩]⟩]
            ⟨[(⟨0, 1, 16, 0⟩, ⟨false, ⟨1, 16, 0, 60, [⟨1, 16, 0, 1⟩, ⟨1, 16, 0, 2⟩]⟩⟩)], []⟩).1).1 =
        some (wrapImmutable ⟨1, 16, 0, 60, [⟨1, 16, 0, 9⟩]⟩) ∧
      storeGet (txW.replace [.aname 0, .ards ⟨1, 16, 0, 60, [⟨1, 16, 0, 9⟩]⟩]
          ⟨[(⟨0, 1, 16, 0⟩, ⟨false, ⟨1, 16, 0, 60, [⟨1, 16, 0, 1⟩, ⟨1, 16, 0, 2⟩]⟩⟩)], []⟩).1.store
          ⟨5, 1, 16, 0⟩ =
        storeGet [(⟨0, 1, 16, 0⟩, ⟨false, ⟨1, 16, 0, 60, [⟨1, 16, 0, 1⟩, ⟨1, 16, 0, 2⟩]⟩⟩)]
          ⟨5, 1, 16, 0⟩) :=
  ⟨by decide, by decide,
    c5_replace_overwrites txW
      ⟨[(⟨0, 1, 16, 0⟩, ⟨false, ⟨1, 16, 0, 60, [⟨1, 16, 0, 1⟩, ⟨1, 16, 0, 2⟩]⟩⟩)], []⟩
      0 ⟨1, 16, 0, 60, [⟨1, 16, 0, 9⟩]⟩ ⟨5, 1, 16, 0⟩ (by decide) (by decide)⟩

/-! ### C4: add computes the union -/

/-- A two-member TXT record set fixture. -/
def txtA : Rdataset := ⟨1, 16, 0, 60, [⟨1, 16, 0, 1⟩, ⟨1, 16, 0, 2⟩]⟩

/-- A two-member TXT record set overlapping txtA in one member. -/
def txtB : Rdataset := ⟨1, 16, 0, 60, [⟨1, 16, 0, 2⟩, ⟨1, 16, 0, 3⟩]⟩

/-- A state storing txtA as an immutable backend value. -/
def immState : TxState := ⟨[(⟨0, 1, 16, 0⟩, ⟨true, txtA⟩)], []⟩

/-- C4: add on a (name, record set B) form succeeds; when nothing pre-existed
at the key, a following get returns B alone; when A pre-existed (mutable or
immutable), a following get returns the member items of A union B, and the
value written back is a fresh mutable record set (an immutable existing
value is first copied into a mutable working value, member for member, so
the stored immutable snapshot is not the value mutated). -/
theorem c4_add_union
    (t : Transaction) (st : TxState) (n : Nat) (B : Rdataset) (stored : StoredRds)
    (hro : t.read_only = false)
    (hc1 : stored.rds.rdclass = B.rdclass) (hc2 : stored.rds.rdtype = B.rdtype)
    (hc3 : stored.rds.covers = B.covers) :
    (t.add [.aname n, .ards B] st).2 = none ∧
    (storeGet st.store (keyOf n B) = none →
      (t.get n B.rdclass B.rdtype B.covers (t.add [.aname n, .ards B] st).1).1 =
        some (wrapImmutable B)) ∧
    (storeGet st.store (keyOf n B) = some stored → stored.rds.items.Nodup →
      Option.map (fun w => w.rds.items)
          (t.get n B.rdclass B.rdtype B.covers (t.add [.aname n, .ards B] st).1).1 =
        some ((stored.rds.union B).items) ∧
      Option.map (fun s => s.immut)
          (storeGet (t.add [.aname n, .ards B] st).1.store (keyOf n B)) = some false) ∧
    (stored.rds.items.Nodup → (copyImmutable stored.rds).items = stored.rds.items) := by
  rw [add_rds_run t st n B hro]
  have hkeq : (⟨n, B.rdclass, B.rdtype, B.covers⟩ : Key) = keyOf n B := rfl
  refine ⟨?_, ?_, ?_, fun h => copyImmutable_items stored.rds h⟩
  · cases storeGet st.store (keyOf n B) <;> rfl
  · intro h
    rw [h, get_eq]
    simp only [bPut, hkeq]
    rw [storeGet_put_same]
    rfl
  · intro h hnd
    rw [h]
    have hkeyU : keyOf n
        ((if stored.immut = true then copyImmutable stored.rds else stored.rds).union B) =
        keyOf n B := by
      unfold keyOf
      obtain ⟨hu1, hu2, hu3⟩ :=
        union_fields (if stored.immut = true then copyImmutable stored.rds else stored.rds) B
      rw [hu1, hu2, hu3]
      cases hi : stored.immut
      · simp only [Bool.false_eq_true, if_false]
        rw [hc1, hc2, hc3]
      · simp only [if_true]
        obtain ⟨hp1, hp2, hp3⟩ := copyImmutable_fields stored.rds
        rw [hp1, hp2, hp3, hc1, hc2, hc3]
    constructor
    · rw [get_eq]
      simp only [bPut, hkeq, hkeyU]
      rw [storeGet_put_same]
      simp only [Option.map_some]
      cases hi : stored.immut with
      | false => rfl
      | true =>
        simp only [if_true]
        exact congrArg some
          (union_items_congr (copyImmutable stored.rds) stored.rds B
            (copyImmutable_items stored.rds hnd))
    · simp only [bPut, hkeyU]
      rw [storeGet_put_same]
      rfl

/-- Witness for c4_add_union: adding txtB over the immutable stored txtA. -/
theorem c4_add_union_witness :
    txW.read_only = false ∧
    ((txW.add [.aname 0, .ards txtB] immState).2 = none ∧
     (storeGet immState.store (keyOf 0 txtB) = none →
       (txW.get 0 txtB.rdclass txtB.rdtype txtB.covers
           (txW.add [.aname 0, .ards txtB] immState).1).1 = some (wrapImmutable txtB)) ∧
     (storeGet immState.store (keyOf 0 txtB) = some ⟨true, txtA⟩ →
       (StoredRds.rds ⟨true, txtA⟩).items.Nodup →
       Option.map (fun w => w.rds.items)
           (txW.get 0 txtB.rdclass txtB.rdtype txtB.covers
             (txW.add [.aname 0, .ards txtB] immState).1).1 =
         some (((StoredRds.rds ⟨true, txtA⟩).union txtB).items) ∧
       Option.map (fun s => s.immut)
           (storeGet (txW.add [.aname 0, .ards txtB] immState).1.store (keyOf 0 txtB)) =
         some false) ∧
     ((StoredRds.rds ⟨true, txtA⟩).items.Nodup →
       (copyImmutable (StoredRds.rds ⟨true, txtA⟩)).items =
         (StoredRds.rds ⟨true, txtA⟩).items)) :=
  ⟨by decide, c4_add_union txW immState 0 txtB ⟨true, txtA⟩ (by decide)
    (by decide) (by decide) (by decide)⟩

/-! ### Delete run-shape lemmas -/

/-- The run of _delete on the (name, record set) form with a non-empty
record set, as a function of the existing value at the key. -/
theorem deleteImpl_rds_run (exact : Bool) (n : Nat) (B : Rdataset) (st : TxState)
    (hB : B.items.isEmpty = false) :
    deleteImpl exact [.aname n, .ards B] st =
      match storeGet st.store (keyOf n B) with
      | none =>
        if exact then
          ({ st with log := st.log ++ [.getOp (keyOf n B)] }, some .deleteNotExact)
        else ({ st with log := st.log ++ [.getOp (keyOf n B)] }, none)
      | some stored =>
        if exact = true ∧ ¬ Rdataset.rdsEq (stored.rds.intersection B) B then
          ({ st with log := st.log ++ [.getOp (keyOf n B)] }, some .deleteNotExact)
        else
          if (stored.rds.difference B).items.isEmpty then
            (bDelRds { st with log := st.log ++ [.getOp (keyOf n B)] }
              (keyOf n (stored.rds.difference B)), none)
          else
            (bPut { st with log := st.log ++ [.getOp (keyOf n B)] } n
              (stored.rds.difference B), none) := by
  unfold deleteImpl deleteNormalize rdatasetFromArgs
  simp only [List.isEmpty_nil, if_true, WorkRds.toRds, hB, Bool.false_eq_true,
    if_false, bGet]

/-- The run of _delete on the (name, record set) form when a record set
exists at the key. -/
theorem deleteImpl_rds_run_some (exact : Bool) (n : Nat) (B : Rdataset)
    (st : TxState) (stored : StoredRds) (hB : B.items.isEmpty = false)
    (h : storeGet st.store (keyOf n B) = some stored) :
    deleteImpl exact [.aname n, .ards B] st =
      if exact = true ∧ ¬ Rdataset.rdsEq (stored.rds.intersection B) B then
        ({ st with log := st.log ++ [.getOp (keyOf n B)] }, some .deleteNotExact)
      else
        if (stored.rds.difference B).items.isEmpty then
          (bDelRds { st with log := st.log ++ [.getOp (keyOf n B)] }
            (keyOf n (stored.rds.difference B)), none)
        else
          (bPut { st with log := st.log ++ [.getOp (keyOf n B)] } n
            (stored.rds.difference B), none) := by
  rw [deleteImpl_rds_run exact n B st hB, h]

/-- The run of _delete on the (name, record set) form with an empty record
set: the truthiness test sends it to whole-name deletion. -/
theorem deleteImpl_rds_empty_run (exact : Bool) (n : Nat) (B : Rdataset) (st : TxState)
    (hB : B.items.isEmpty = true) :
    deleteImpl exact [.aname n, .ards B] st = nameDelete exact n st := by
  unfold deleteImpl deleteNormalize rdatasetFromArgs
  simp only [List.isEmpty_nil, if_true, WorkRds.toRds, hB]

/-- The run of _delete on the name-only form: the null sentinel also goes to
whole-name deletion. -/
theorem deleteImpl_sentinel_run (exact : Bool) (n : Nat) (st : TxState) :
    deleteImpl exact [.aname n] st = nameDelete exact n st := rfl

/-- The run of _delete on the (name, class, type, covers) selector form. -/
theorem deleteImpl_sel_run (exact : Bool) (n c ty cov : Nat) (st : TxState) :
    deleteImpl exact [.aname n, .aint c, .aint ty, .aint cov] st =
      match storeGet st.store ⟨n, c, ty, cov⟩ with
      | none =>
        if exact then
          ({ st with log := st.log ++ [.getOp ⟨n, c, ty, cov⟩] }, some .deleteNotExact)
        else ({ st with log := st.log ++ [.getOp ⟨n, c, ty, cov⟩] }, none)
      | some _ =>
        (bDelRds { st with log := st.log ++ [.getOp ⟨n, c, ty, cov⟩] } ⟨n, c, ty, cov⟩,
          none) := by
  unfold deleteImpl deleteNormalize
  simp only [List.isEmpty_nil, if_true, bGet]

/-! ### C6: delete semantics -/

/-- A state storing txtA as a mutable backend value. -/
def abState : TxState := ⟨[(⟨0, 1, 16, 0⟩, ⟨false, txtA⟩)], []⟩

/-- C6, amended: for a non-empty record set B, delete at a (name, selector)
computes existing minus B: an empty remainder deletes the selector entirely
(a following lookup finds nothing) and a non-empty remainder is written
back; with nothing existing, delete succeeds as a no-op.  However, a record
set with no members is dispatched exactly like the absent-record-set null
sentinel (the truthiness test at line 286 does not distinguish them): both
delete the whole name.  Delete never errors on missing data. -/
theorem c6_delete_semantics
    (t : Transaction) (st : TxState) (n : Nat) (B E0 : Rdataset) (stored : StoredRds)
    (hro : t.read_only = false) (hB : B.items.isEmpty = false)
    (hE0 : E0.items.isEmpty = true)
    (hc1 : stored.rds.rdclass = B.rdclass) (hc2 : stored.rds.rdtype = B.rdtype)
    (hc3 : stored.rds.covers = B.covers) :
    (storeGet st.store (keyOf n B) = some stored →
      (t.delete [.aname n, .ards B] st).2 = none ∧
      storeGet (t.delete [.aname n, .ards B] st).1.store (keyOf n B) =
        (if (stored.rds.difference B).items.isEmpty then none
         else some ⟨false, stored.rds.difference B⟩)) ∧
    (storeGet st.store (keyOf n B) = none →
      (t.delete [.aname n, .ards B] st).2 = none ∧
      (t.delete [.aname n, .ards B] st).1.store = st.store) ∧
    ((t.delete [.aname n, .ards E0] st).2 = none ∧
      (t.delete [.aname n, .ards E0] st).1.store = storeDelName st.store n) ∧
    ((t.delete [.aname n] st).2 = none ∧
      (t.delete [.aname n] st).1.store = storeDelName st.store n) := by
  have hkeyD : keyOf n (stored.rds.difference B) = keyOf n B := by
    show (⟨n, stored.rds.rdclass, stored.rds.rdtype, stored.rds.covers⟩ : Key) =
      ⟨n, B.rdclass, B.rdtype, B.covers⟩
    rw [hc1, hc2, hc3]
  unfold Transaction.delete
  rw [hro]
  simp only [Bool.false_eq_true, if_false]
  refine ⟨?_, ?_, ?_, ?_⟩
  · intro h
    rw [deleteImpl_rds_run false n B st hB, h]
    simp only [Bool.false_eq_true, false_and, if_false]
    cases hrem : (stored.rds.difference B).items.isEmpty
    · refine ⟨by simp, ?_⟩
      simp only [Bool.false_eq_true, if_false, bPut, hkeyD]
      rw [storeGet_put_same]
    · refine ⟨by simp, ?_⟩
      simp only [if_true, bDelRds, hkeyD]
      rw [storeGet_delKey_same]
  · intro h
    rw [deleteImpl_rds_run false n B st hB, h]
    exact ⟨rfl, rfl⟩
  · rw [deleteImpl_rds_empty_run false n E0 st hE0]
    exact ⟨rfl, rfl⟩
  · rw [deleteImpl_sentinel_run false n st]
    exact ⟨rfl, rfl⟩

/-- Witness for c6_delete_semantics: deleting one member of the stored
two-member record set leaves the other member written back. -/
theorem c6_delete_semantics_witness :
    txW.read_only = false ∧
    (Rdataset.items ⟨1, 16, 0, 60, [⟨1, 16, 0, 1⟩]⟩).isEmpty = false ∧
    (Rdataset.items ⟨1, 16, 0, 0, []⟩).isEmpty = true ∧
    ((storeGet abState.store (keyOf 0 ⟨1, 16, 0, 60, [⟨1, 16, 0, 1⟩]⟩) =
        some ⟨false, txtA⟩ →
      (txW.delete [.aname 0, .ards ⟨1, 16, 0, 60, [⟨1, 16, 0, 1⟩]⟩] abState).2 = none ∧
      storeGet (txW.delete [.aname 0, .ards ⟨1, 16, 0, 60, [⟨1, 16, 0, 1⟩]⟩] abState).1.store
          (keyOf 0 ⟨1, 16, 0, 60, [⟨1, 16, 0, 1⟩]⟩) =
        (if ((StoredRds.rds ⟨false, txtA⟩).difference
              ⟨1, 16, 0, 60, [⟨1, 16, 0, 1⟩]⟩).items.isEmpty then none
         else some ⟨false, (StoredRds.rds ⟨false, txtA⟩).difference
              ⟨1, 16, 0, 60, [⟨1, 16, 0, 1⟩]⟩⟩)) ∧
     (storeGet abState.store (keyOf 0 ⟨1, 16, 0, 60, [⟨1, 16, 0, 1⟩]⟩) = none →
      (txW.delete [.aname 0, .ards ⟨1, 16, 0, 60, [⟨1, 16, 0, 1⟩]⟩] abState).2 = none ∧
      (txW.delete [.aname 0, .ards ⟨1, 16, 0, 60, [⟨1, 16, 0, 1⟩]⟩] abState).1.store =
        abState.store) ∧
     ((txW.delete [.aname 0, .ards ⟨1, 16, 0, 0, []⟩] abState).2 = none ∧
      (txW.delete [.aname 0, .ards ⟨1, 16, 0, 0, []⟩] abState).1.store =
        storeDelName abState.store 0) ∧
     ((txW.delete [.aname 0] abState).2 = none ∧
      (txW.delete [.aname 0] abState).1.store = storeDelName abState.store 0)) :=
  ⟨by decide, by decide, by decide,
    c6_delete_semantics txW abState 0 ⟨1, 16, 0, 60, [⟨1, 16, 0, 1⟩]⟩ ⟨1, 16, 0, 0, []⟩
      ⟨false, txtA⟩ (by decide) (by decide) (by decide) (by decide) (by decide) (by decide)⟩

/-- Counterexample to C6 as stated: deleting with an empty record set (not
the null sentinel) at a name holding a non-empty record set does not write
back existing minus empty; it deletes the whole name through the backend
name delete. -/
theorem c6_counterexample :
    storeGet (txW.delete [.aname 0, .ards ⟨1, 16, 0, 0, []⟩] abState).1.store
      ⟨0, 1, 16, 0⟩ = none ∧
    (txW.delete [.aname 0, .ards ⟨1, 16, 0, 0, []⟩] abState).1.log = [.delNameOp 0] ∧
    (Rdataset.items ⟨1, 16, 0, 0, []⟩) = [] ∧
    txtA.items ≠ [] := by decide

/-! ### C3: delete_exact -/

/-- C3, amended: delete_exact verifies before mutating.  For the selector
form it fails with DeleteNotExact exactly when the selector has no data; for
the record-set form with a non-empty record set B it fails exactly when no
record set exists at the key or when existing intersect B differs from B
(some requested record-data is absent); a record set with no members is
dispatched as whole-name deletion (like the null sentinel), which fails
exactly when the name does not exist.  Whenever it fails the store is
unchanged, and whenever it does not fail its store effect equals that of
delete with the same arguments. -/
theorem c3_delete_exact_verifies
    (t : Transaction) (st : TxState) (n nc nt ncov : Nat) (B E0 : Rdataset)
    (stored : StoredRds)
    (hro : t.read_only = false) (hB : B.items.isEmpty = false)
    (hE0 : E0.items.isEmpty = true) :
    (storeGet st.store ⟨n, nc, nt, ncov⟩ = none →
      (t.delete_exact [.aname n, .aint nc, .aint nt, .aint ncov] st).2 =
        some .deleteNotExact ∧
      (t.delete_exact [.aname n, .aint nc, .aint nt, .aint ncov] st).1.store = st.store) ∧
    (storeGet st.store ⟨n, nc, nt, ncov⟩ ≠ none →
      (t.delete_exact [.aname n, .aint nc, .aint nt, .aint ncov] st).2 = none ∧
      (t.delete_exact [.aname n, .aint nc, .aint nt, .aint ncov] st).1.store =
        (t.delete [.aname n, .aint nc, .aint nt, .aint ncov] st).1.store) ∧
    (storeGet st.store (keyOf n B) = none →
      (t.delete_exact [.aname n, .ards B] st).2 = some .deleteNotExact ∧
      (t.delete_exact [.aname n, .ards B] st).1.store = st.store) ∧
    (storeGet st.store (keyOf n B) = some stored →
      (¬ Rdataset.rdsEq (stored.rds.intersection B) B →
        (t.delete_exact [.aname n, .ards B] st).2 = some .deleteNotExact ∧
        (t.delete_exact [.aname n, .ards B] st).1.store = st.store) ∧
      (Rdataset.rdsEq (stored.rds.intersection B) B →
        (t.delete_exact [.aname n, .ards B] st).2 = none ∧
        (t.delete_exact [.aname n, .ards B] st).1.store =
          (t.delete [.aname n, .ards B] st).1.store)) ∧
    (storeNameExists st.store n = false →
      (t.delete_exact [.aname n, .ards E0] st).2 = some .deleteNotExact ∧
      (t.delete_exact [.aname n, .ards E0] st).1.store = st.store ∧
      (t.delete_exact [.aname n] st).2 = some .deleteNotExact ∧
      (t.delete_exact [.aname n] st).1.store = st.store) ∧
    (storeNameExists st.store n = true →
      (t.delete_exact [.aname n, .ards E0] st).2 = none ∧
      (t.delete_exact [.aname n, .ards E0] st).1.store =
        (t.delete [.aname n, .ards E0] st).1.store ∧
      (t.delete_exact [.aname n] st).2 = none ∧
      (t.delete_exact [.aname n] st).1.store = (t.delete [.aname n] st).1.store) := by
  unfold Transaction.delete_exact Transaction.delete
  rw [hro]
  simp only [Bool.false_eq_true, if_false]
  refine ⟨?_, ?_, ?_, ?_, ?_, ?_⟩
  · intro h
    rw [deleteImpl_sel_run true n nc nt ncov st, h]
    exact ⟨rfl, rfl⟩
  · intro h
    rw [deleteImpl_sel_run true n nc nt ncov st, deleteImpl_sel_run false n nc nt ncov st]
    cases hg : storeGet st.store ⟨n, nc, nt, ncov⟩ with
    | none => exact absurd hg h
    | some s0 => exact ⟨rfl, rfl⟩
  · intro h
    rw [deleteImpl_rds_run true n B st hB, h]
    exact ⟨rfl, rfl⟩
  · intro h
    rw [deleteImpl_rds_run_some true n B st stored hB h,
      deleteImpl_rds_run_some false n B st stored hB h]
    constructor
    · intro hne
      rw [if_pos (show true = true ∧ ¬ Rdataset.rdsEq (stored.rds.intersection B) B from
        ⟨rfl, hne⟩)]
      exact ⟨rfl, rfl⟩
    · intro heq
      rw [if_neg (fun hc : true = true ∧ ¬ Rdataset.rdsEq (stored.rds.intersection B) B =>
        hc.2 heq)]
      rw [if_neg (fun hc : false = true ∧ ¬ Rdataset.rdsEq (stored.rds.intersection B) B =>
        by cases hc.1)]
      cases hrem : (stored.rds.difference B).items.isEmpty <;> exact ⟨rfl, rfl⟩
  · intro h
    rw [deleteImpl_rds_empty_run true n E0 st hE0, deleteImpl_sentinel_run true n st]
    unfold nameDelete bNameExists
    rw [h]
    exact ⟨rfl, rfl, rfl, rfl⟩
  · intro h
    rw [deleteImpl_rds_empty_run true n E0 st hE0, deleteImpl_rds_empty_run false n E0 st hE0,
      deleteImpl_sentinel_run true n st, deleteImpl_sentinel_run false n st]
    unfold nameDelete bNameExists bDelName
    rw [h]
    exact ⟨rfl, rfl, rfl, rfl⟩

/-- Witness for c3_delete_exact_verifies over the two-member stored record
set. -/
theorem c3_delete_exact_verifies_witness :
    txW.read_only = false ∧
    (Rdataset.items ⟨1, 16, 0, 60, [⟨1, 16, 0, 1⟩]⟩).isEmpty = false ∧
    (Rdataset.items ⟨1, 16, 0, 0, []⟩).isEmpty = true ∧
    ((storeGet abState.store ⟨0, 1, 16, 0⟩ = none →
      (txW.delete_exact [.aname 0, .aint 1, .aint 16, .aint 0] abState).2 =
        some .deleteNotExact ∧
      (txW.delete_exact [.aname 0, .aint 1, .aint 16, .aint 0] abState).1.store =
        abState.store) ∧
    (storeGet abState.store ⟨0, 1, 16, 0⟩ ≠ none →
      (txW.delete_exact [.aname 0, .aint 1, .aint 16, .aint 0] abState).2 = none ∧
      (txW.delete_exact [.aname 0, .aint 1, .aint 16, .aint 0] abState).1.store =
        (txW.delete [.aname 0, .aint 1, .aint 16, .aint 0] abState).1.store) ∧
    (storeGet abState.store (keyOf 0 ⟨1, 16, 0, 60, [⟨1, 16, 0, 1⟩]⟩) = none →
      (txW.delete_exact [.aname 0, .ards ⟨1, 16, 0, 60, [⟨1, 16, 0, 1⟩]⟩] abState).2 =
        some .deleteNotExact ∧
      (txW.delete_exact [.aname 0, .ards ⟨1, 16, 0, 60, [⟨1, 16, 0, 1⟩]⟩] abState).1.store =
        abState.store) ∧
    (storeGet abState.store (keyOf 0 ⟨1, 16, 0, 60, [⟨1, 16, 0, 1⟩]⟩) =
        some ⟨false, txtA⟩ →
      (¬ Rdataset.rdsEq ((StoredRds.rds ⟨false, txtA⟩).intersection
          ⟨1, 16, 0, 60, [⟨1, 16, 0, 1⟩]⟩) ⟨1, 16, 0, 60, [⟨1, 16, 0, 1⟩]⟩ →
        (txW.delete_exact [.aname 0, .ards ⟨1, 16, 0, 60, [⟨1, 16, 0, 1⟩]⟩] abState).2 =
          some .deleteNotExact ∧
        (txW.delete_exact [.aname 0, .ards ⟨1, 16, 0, 60, [⟨1, 16, 0, 1⟩]⟩] abState).1.store =
          abState.store) ∧
      (Rdataset.rdsEq ((StoredRds.rds ⟨false, txtA⟩).intersection
          ⟨1, 16, 0, 60, [⟨1, 16, 0, 1⟩]⟩) ⟨1, 16, 0, 60, [⟨1, 16, 0, 1⟩]⟩ →
        (txW.delete_exact [.aname 0, .ards ⟨1, 16, 0, 60, [⟨1, 16, 0, 1⟩]⟩] abState).2 =
          none ∧
        (txW.delete_exact [.aname 0, .ards ⟨1, 16, 0, 60, [⟨1, 16, 0, 1⟩]⟩] abState).1.store =
          (txW.delete [.aname 0, .ards ⟨1, 16, 0, 60, [⟨1, 16, 0, 1⟩]⟩] abState).1.store)) ∧
    (storeNameExists abState.store 0 = false →
      (txW.delete_exact [.aname 0, .ards ⟨1, 16, 0, 0, []⟩] abState).2 =
        some .deleteNotExact ∧
      (txW.delete_exact [.aname 0, .ards ⟨1, 16, 0, 0, []⟩] abState).1.store =
        abState.store ∧
      (txW.delete_exact [.aname 0] abState).2 = some .deleteNotExact ∧
      (txW.delete_exact [.aname 0] abState).1.store = abState.store) ∧
    (storeNameExists abState.store 0 = true →
      (txW.delete_exact [.aname 0, .ards ⟨1, 16, 0, 0, []⟩] abState).2 = none ∧
      (txW.delete_exact [.aname 0, .ards ⟨1, 16, 0, 0, []⟩] abState).1.store =
        (txW.delete [.aname 0, .ards ⟨1, 16, 0, 0, []⟩] abState).1.store ∧
      (txW.delete_exact [.aname 0] abState).2 = none ∧
      (txW.delete_exact [.aname 0] abState).1.store =
        (txW.delete [.aname 0] abState).1.store)) :=
  ⟨by decide, by decide, by decide,
    c3_delete_exact_verifies txW abState 0 1 16 0 ⟨1, 16, 0, 60, [⟨1, 16, 0, 1⟩]⟩
      ⟨1, 16, 0, 0, []⟩ ⟨false, txtA⟩ (by decide) (by decide) (by decide)⟩

/-- Counterexample to C3 as stated: delete_exact of an empty record set B at
an unknown name fails with DeleteNotExact although every requested
record-data (there is none) is present, i.e. existing intersect B equals B;
the empty record set is dispatched as whole-name deletion, contradicting the
claimed failure condition for the record-set form. -/
theorem c3_counterexample :
    (txW.delete_exact [.aname 5, .ards ⟨1, 16, 0, 0, []⟩] ⟨[], []⟩).2 =
      some .deleteNotExact ∧
    (Rdataset.items ⟨1, 16, 0, 0, []⟩) = [] := by decide

/-! ### C7: scoped block -/

/-- Closed form of the scoped-block run: the body runs, then exactly one
end-transaction is appended, committing exactly when no error is active, and
the body error (if any) is returned, never suppressed. -/
theorem withTransaction_eq (body : TxState → TxState × Option TxError) (st : TxState) :
    withTransaction body st =
      ({ (body st).1 with log := (body st).1.log ++ [.endOp (body st).2.isNone] },
        (body st).2) := by
  simp only [withTransaction, exitTransaction, endTransaction]
  rcases hbs : body st with ⟨s1, e1⟩
  cases e1 <;> rfl

theorem countEnds_append_end (l : List BackendOp) (b : Bool) :
    countEnds (l ++ [.endOp b]) = countEnds l + 1 := by
  unfold countEnds
  rw [List.filter_append]
  simp

/-- C7: for every scoped-block use whose body does not itself call
end-transaction, exiting without an active error invokes end-transaction
with commit exactly once, exiting with an active error invokes it without
commit exactly once, the error still propagates, and end-transaction is
invoked exactly once in total. -/
theorem c7_scoped_block
    (body : TxState → TxState × Option TxError) (st : TxState)
    (hbody : countEnds (body st).1.log = countEnds st.log) :
    (withTransaction body st).2 = (body st).2 ∧
    (withTransaction body st).1.log =
      (body st).1.log ++ [.endOp (body st).2.isNone] ∧
    countEnds (withTransaction body st).1.log = countEnds st.log + 1 := by
  rw [withTransaction_eq]
  refine ⟨rfl, rfl, ?_⟩
  rw [countEnds_append_end, hbody]

/-- Witness for c7_scoped_block: a body that fails with TypeError rolls
back (end with commit false) and the error propagates. -/
theorem c7_scoped_block_witness :
    countEnds ((fun (s : TxState) => (s, some TxError.typeErr)) ⟨[], []⟩).1.log =
      countEnds (TxState.log ⟨[], []⟩) ∧
    ((withTransaction (fun (s : TxState) => (s, some TxError.typeErr)) ⟨[], []⟩).2 =
      ((fun (s : TxState) => (s, some TxError.typeErr)) ⟨[], []⟩).2 ∧
    (withTransaction (fun (s : TxState) => (s, some TxError.typeErr)) ⟨[], []⟩).1.log =
      ((fun (s : TxState) => (s, some TxError.typeErr)) ⟨[], []⟩).1.log ++
        [.endOp ((fun (s : TxState) => (s, some TxError.typeErr)) ⟨[], []⟩).2.isNone] ∧
    countEnds (withTransaction (fun (s : TxState) => (s, some TxError.typeErr))
        ⟨[], []⟩).1.log = countEnds (TxState.log ⟨[], []⟩) + 1) :=
  ⟨by decide, c7_scoped_block (fun s => (s, some TxError.typeErr)) ⟨[], []⟩ (by decide)⟩

/-! ### C8: get returns an immutable wrapper -/

/-- C8: get never changes the store; when the lookup finds nothing it
returns none (a not-found value, not an error); when it finds a record set
the returned value is an immutable wrapper carrying a copy of the record
set, whose construction is finished (the init flag is gone), so every
attribute assignment or removal attempt on it fails with TypeError, and the
store is unaffected. -/
theorem c8_get_immutable
    (t : Transaction) (st : TxState) (nm c ty cov : Nat) (stored : StoredRds)
    (r' : Rdataset) :
    (t.get nm c ty cov st).2.store = st.store ∧
    (storeGet st.store ⟨nm, c, ty, cov⟩ = none → (t.get nm c ty cov st).1 = none) ∧
    (storeGet st.store ⟨nm, c, ty, cov⟩ = some stored →
      (t.get nm c ty cov st).1 = some ⟨false, stored.rds⟩ ∧
      ImmutableRdataset.setAttr ⟨false, stored.rds⟩ r' = .error .typeErr ∧
      ImmutableRdataset.delAttr ⟨false, stored.rds⟩ = .error .typeErr) := by
  refine ⟨?_, ?_, ?_⟩
  · unfold Transaction.get
    simp only [bGet]
    cases storeGet st.store ⟨nm, c, ty, cov⟩ with
    | none => rfl
    | some s0 => cases h : s0.immut <;> simp [h]
  · intro h
    rw [get_eq, h]
  · intro h
    rw [get_eq, h]
    exact ⟨rfl, rfl, rfl⟩

/-- Witness for c8_get_immutable over the stored txtA. -/
theorem c8_get_immutable_witness :
    (txW.get 0 1 16 0 abState).2.store = abState.store ∧
    (storeGet abState.store ⟨0, 1, 16, 0⟩ = none → (txW.get 0 1 16 0 abState).1 = none) ∧
    (storeGet abState.store ⟨0, 1, 16, 0⟩ = some ⟨false, txtA⟩ →
      (txW.get 0 1 16 0 abState).1 = some ⟨false, StoredRds.rds ⟨false, txtA⟩⟩ ∧
      ImmutableRdataset.setAttr ⟨false, StoredRds.rds ⟨false, txtA⟩⟩ txtB =
        .error .typeErr ∧
      ImmutableRdataset.delAttr ⟨false, StoredRds.rds ⟨false, txtA⟩⟩ =
        .error .typeErr) :=
  c8_get_immutable txW abState 0 1 16 0 ⟨false, txtA⟩ txtB

/-! ### C9: empty record sets and persistence -/

/-- C9, amended: the delete operations and set_serial never persist an empty
record set: every backend point write they issue carries a non-empty record
set (an empty remainder after difference triggers a selector-level key
delete instead of a write).  add and replace, by contrast, write through the
record set they are given even when it is empty. -/
theorem no_putOp_in_log1 (l : List BackendOp) (op : BackendOp) (k : Key) (r : Rdataset)
    (hop : op ≠ .putOp k r) (hl : BackendOp.putOp k r ∉ l) :
    BackendOp.putOp k r ∉ l ++ [op] := by
  intro hm
  rcases List.mem_append.mp hm with h | h
  · exact hl h
  · rw [List.mem_singleton] at h
    exact hop h.symm

theorem putOp_mem_put_end (l : List BackendOp) (k1 : Key) (r1 : Rdataset)
    (k : Key) (r : Rdataset) (hl : BackendOp.putOp k r ∉ l)
    (hm : BackendOp.putOp k r ∈ l ++ [.putOp k1 r1]) : r = r1 := by
  rcases List.mem_append.mp hm with h | h
  · exact absurd h hl
  · rw [List.mem_singleton] at h
    injection h with h1 h2

/-- The record-set path of _delete with an existing record set never writes
an empty record set. -/
theorem c9_rds_leaf (exact : Bool) (n : Nat) (B : Rdataset) (st : TxState)
    (stored : StoredRds) (k : Key) (r : Rdataset)
    (hpre : BackendOp.putOp k r ∉ st.log)
    (hm : BackendOp.putOp k r ∈
      (if exact = true ∧ ¬ Rdataset.rdsEq (stored.rds.intersection B) B then
        ({ st with log := st.log ++ [.getOp (keyOf n B)] }, some TxError.deleteNotExact)
      else
        if (stored.rds.difference B).items.isEmpty then
          (bDelRds { st with log := st.log ++ [.getOp (keyOf n B)] }
            (keyOf n (stored.rds.difference B)), none)
        else
          (bPut { st with log := st.log ++ [.getOp (keyOf n B)] } n
            (stored.rds.difference B), none)).1.log) :
    r.items ≠ [] := by
  have hclean : BackendOp.putOp k r ∉ st.log ++ [.getOp (keyOf n B)] :=
    no_putOp_in_log1 st.log _ k r (fun h => BackendOp.noConfusion h) hpre
  by_cases hx : exact = true ∧ ¬ Rdataset.rdsEq (stored.rds.intersection B) B
  · rw [if_pos hx] at hm
    exact absurd hm hclean
  · rw [if_neg hx] at hm
    cases hrem : (stored.rds.difference B).items.isEmpty with
    | true =>
      rw [if_pos hrem] at hm
      exact absurd hm (no_putOp_in_log1 _ _ k r (fun h => BackendOp.noConfusion h) hclean)
    | false =>
      rw [if_neg (by rw [hrem]; exact Bool.false_ne_true)] at hm
      have hr : r = stored.rds.difference B := putOp_mem_put_end _ _ _ k r hclean hm
      rw [hr]
      intro hc
      rw [hc] at hrem
      exact Bool.noConfusion hrem

/-- The whole-name path of _delete never writes at all. -/
theorem c9_name_leaf (exact : Bool) (n : Nat) (st : TxState) (k : Key) (r : Rdataset)
    (hpre : BackendOp.putOp k r ∉ st.log)
    (hm : BackendOp.putOp k r ∈ (nameDelete exact n st).1.log) : r.items ≠ [] := by
  cases exact with
  | false =>
    exact absurd hm (no_putOp_in_log1 st.log _ k r (fun h => BackendOp.noConfusion h) hpre)
  | true =>
    have hclean : BackendOp.putOp k r ∉ st.log ++ [.existsOp n] :=
      no_putOp_in_log1 st.log _ k r (fun h => BackendOp.noConfusion h) hpre
    cases hex : storeNameExists st.store n with
    | true =>
      replace hm : BackendOp.putOp k r ∈
          (st.log ++ [.existsOp n]) ++ [.delNameOp n] := by
        have hsh : (nameDelete true n st).1.log =
            (st.log ++ [.existsOp n]) ++ [.delNameOp n] := by
          unfold nameDelete bNameExists bDelName
          rw [hex]
          rfl
        rw [hsh] at hm
        exact hm
      exact absurd hm (no_putOp_in_log1 _ _ k r (fun h => BackendOp.noConfusion h) hclean)
    | false =>
      replace hm : BackendOp.putOp k r ∈ st.log ++ [.existsOp n] := by
        have hsh : (nameDelete true n st).1.log = st.log ++ [.existsOp n] := by
          unfold nameDelete bNameExists
          rw [hex]
          rfl
        rw [hsh] at hm
        exact hm
      exact absurd hm hclean

theorem c9_delete_never_puts_empty
    (t : Transaction) (exact : Bool) (args : List Arg) (st : TxState)
    (inc : Int) (v : Option Int) (sn sc : Nat) (k : Key) (r : Rdataset)
    (hpre : BackendOp.putOp k r ∉ st.log) :
    (BackendOp.putOp k r ∈ (deleteImpl exact args st).1.log → r.items ≠ []) ∧
    (BackendOp.putOp k r ∈ (t.set_serial inc v sn sc st).1.log → r.items ≠ []) := by
  constructor
  · unfold deleteImpl
    rcases hn : deleteNormalize args with e | form
    · simp only [hn]
      intro hm
      exact absurd hm hpre
    · rcases form with ⟨n, c, ty, cov⟩ | ⟨n, w⟩
      · simp only [hn, bGet]
        cases hg : storeGet st.store ⟨n, c, ty, cov⟩ with
        | none =>
          cases exact <;>
            · intro hm
              exact absurd hm (no_putOp_in_log1 st.log _ k r
                (fun h => BackendOp.noConfusion h) hpre)
        | some s0 =>
          intro hm
          exact absurd hm (no_putOp_in_log1 _ _ k r (fun h => BackendOp.noConfusion h)
            (no_putOp_in_log1 st.log _ k r (fun h => BackendOp.noConfusion h) hpre))
      · rcases w with _ | w
        · simp only [hn]
          exact fun hm => c9_name_leaf exact n st k r hpre hm
        · simp only [hn]
          cases he : (WorkRds.toRds w).items.isEmpty with
          | true =>
            simp only [if_pos rfl]
            exact fun hm => c9_name_leaf exact n st k r hpre hm
          | false =>
            simp only [Bool.false_eq_true, if_false, bGet]
            cases hg : storeGet st.store (keyOf n (WorkRds.toRds w)) with
            | none =>
              cases exact <;>
                · intro hm
                  exact absurd hm (no_putOp_in_log1 st.log _ k r
                    (fun h => BackendOp.noConfusion h) hpre)
            | some stored =>
              exact fun hm => c9_rds_leaf exact n (WorkRds.toRds w) st stored k r hpre hm
  · unfold Transaction.set_serial
    simp only [bGet]
    cases hg : storeGet st.store ⟨sn, sc, dnsSOA, dnsNONE⟩ with
    | none =>
      intro hm
      exact absurd hm (no_putOp_in_log1 st.log _ k r
        (fun h => BackendOp.noConfusion h) hpre)
    | some stored =>
      cases hi : stored.rds.items with
      | nil =>
        simp only [hi]
        intro hm
        exact absurd hm (no_putOp_in_log1 st.log _ k r
          (fun h => BackendOp.noConfusion h) hpre)
      | cons rd0 tl =>
        simp only [hi]
        unfold Transaction.replace
        have hclean : BackendOp.putOp k r ∉
            st.log ++ [.getOp ⟨sn, sc, dnsSOA, dnsNONE⟩] :=
          no_putOp_in_log1 st.log _ k r (fun h => BackendOp.noConfusion h) hpre
        cases hro : t.read_only with
        | true =>
          simp only [if_pos rfl]
          intro hm
          exact absurd hm hclean
        | false =>
          simp only [Bool.false_eq_true, if_false]
          unfold addImpl addNormalize rdatasetFromArgs
          simp only [List.isEmpty_nil, if_true, WorkRds.toRds, bPut]
          intro hm
          have hr := putOp_mem_put_end _ _ _ k r hclean hm
          rw [hr]
          intro hc
          exact List.noConfusion hc

/-- Witness for c9_delete_never_puts_empty: deleting one member of two
issues a write of the non-empty remainder. -/
theorem c9_delete_never_puts_empty_witness :
    BackendOp.putOp ⟨0, 1, 16, 0⟩ ⟨1, 16, 0, 60, [⟨1, 16, 0, 2⟩]⟩ ∉ abState.log ∧
    ((BackendOp.putOp ⟨0, 1, 16, 0⟩ ⟨1, 16, 0, 60, [⟨1, 16, 0, 2⟩]⟩ ∈
        (deleteImpl false [.aname 0, .ards ⟨1, 16, 0, 60, [⟨1, 16, 0, 1⟩]⟩] abState).1.log →
      (Rdataset.items ⟨1, 16, 0, 60, [⟨1, 16, 0, 2⟩]⟩) ≠ []) ∧
     (BackendOp.putOp ⟨0, 1, 16, 0⟩ ⟨1, 16, 0, 60, [⟨1, 16, 0, 2⟩]⟩ ∈
        (txW.set_serial 1 none 0 1 abState).1.log →
      (Rdataset.items ⟨1, 16, 0, 60, [⟨1, 16, 0, 2⟩]⟩) ≠ [])) :=
  ⟨by decide,
    c9_delete_never_puts_empty txW false [.aname 0, .ards ⟨1, 16, 0, 60, [⟨1, 16, 0, 1⟩]⟩]
      abState 1 none 0 1 ⟨0, 1, 16, 0⟩ ⟨1, 16, 0, 60, [⟨1, 16, 0, 2⟩]⟩ (by decide)⟩

/-- Counterexample to C9 as stated: replace with an empty record set issues
a zero-length value write, not a key delete; the empty record set is
persisted in the backend store. -/
theorem c9_counterexample :
    (txW.replace [.aname 3, .ards ⟨1, 16, 0, 0, []⟩] ⟨[], []⟩).1.log =
      [.putOp ⟨3, 1, 16, 0⟩ ⟨1, 16, 0, 0, []⟩] ∧
    storeGet (txW.replace [.aname 3, .ards ⟨1, 16, 0, 0, []⟩] ⟨[], []⟩).1.store
      ⟨3, 1, 16, 0⟩ = some ⟨false, ⟨1, 16, 0, 0, []⟩⟩ ∧
    (Rdataset.items ⟨1, 16, 0, 0, []⟩) = [] := by decide

/-! ### C10: RRset normalization -/

/-- An example RRset at name 7 with one TXT member. -/
def rrEx : RRset := ⟨7, 1, 16, 0, 60, [⟨1, 16, 0, 3⟩]⟩

/-- C10, amended: when the first argument is a full RRset, add and replace
extract the name and copy the members into a freshly constructed plain
RecordSet (so their downstream algebra operates on a plain record set); but
delete and delete_exact use the RRset object itself as the record set (the
source comments at line 280 that rrsets are also rdatasets), without
copying it into a plain RecordSet. -/
theorem c10_rrset_normalization (rr : RRset) (hnd : rr.items.Nodup) :
    addNormalize [.arrset rr] = .ok (rr.name, .plain (rrsetToPlainRds rr)) ∧
    (rrsetToPlainRds rr).items = rr.items ∧
    (WorkRds.plain (rrsetToPlainRds rr)).isPlain = true ∧
    deleteNormalize [.arrset rr] = .ok (.rdsForm rr.name (some (.rrsetVal rr))) ∧
    (WorkRds.rrsetVal rr).isPlain = false :=
  ⟨rfl, rrsetToPlainRds_items rr hnd, rfl, rfl, rfl⟩

/-- Witness for c10_rrset_normalization at the example RRset. -/
theorem c10_rrset_normalization_witness :
    (RRset.items rrEx).Nodup ∧
    (addNormalize [.arrset rrEx] = .ok (rrEx.name, .plain (rrsetToPlainRds rrEx)) ∧
     (rrsetToPlainRds rrEx).items = rrEx.items ∧
     (WorkRds.plain (rrsetToPlainRds rrEx)).isPlain = true ∧
     deleteNormalize [.arrset rrEx] = .ok (.rdsForm rrEx.name (some (.rrsetVal rrEx))) ∧
     (WorkRds.rrsetVal rrEx).isPlain = false) :=
  ⟨by decide, c10_rrset_normalization rrEx (by decide)⟩

/-- Counterexample to C10 as stated: the delete normalizer hands the RRset
value itself downstream, not a plain RecordSet copy of its members. -/
theorem c10_counterexample :
    deleteNormalize [.arrset rrEx] = .ok (.rdsForm 7 (some (.rrsetVal rrEx))) ∧
    (WorkRds.rrsetVal rrEx).isPlain = false := by decide

end DnsPy
